import Mathlib

/-!
Verification of the astrb Ruby-unparser core: a shallow embedding of the
syntax model (`src/ast.rs`) and the rendering engine
(`src/emitters/{mod,access,expression,literals}.rs`), followed by theorems
settling the specification claims about the renderer.

Conventions of the embedding:
- Rust `i64` payloads are modelled as `Int` (rendering only prints the value,
  no arithmetic is performed, so overflow is not observable here);
- Rust `f64` payloads are modelled as `Float`;
- Rust `String`/`&str` are Lean `String`; `format!` concatenations become `++`;
- Rust structs inside the recursive knot become single-constructor inductives,
  since Lean mutual blocks only admit `inductive`.
-/

namespace ast

/-- In ruby, true, false, and nil are categorized as singleton value. -/
inductive SingletonVariants
| True
| False
| Nil

/-- Literal representation for signed integer (Rust `i64`). -/
structure IntegerLiteral where
val : Int

/-- Literal representation for float (Rust `f64`). -/
structure FloatLiteral where
val : Float

/-- Literal representation for rational number (stored as `f64` in the source). -/
structure RationalLiteral where
val : Float

/-- Literal representation for complex number (stored as `f64` in the source). -/
structure ComplexLiteral where
val : Float

/-- Regular expression flags: E fixed-encoding, I case-insensitive, M multi-line,
N no-encoding, U unicode, X extended. Declaration order is E, I, M, N, U, X. -/
inductive RegularExpressionFlag
| E
| I
| M
| N
| U
| X

/-- Constant name representation. -/
structure Constant where
val : String

/-- A variable only has its name, represented as string. -/
structure Variable where
val : String

/-- Global variable is prefixed by dollar sigil. -/
inductive GlobalVariable
| Plain (v : Variable)
| NthReference (i : IntegerLiteral)
| Colon
| Splat
| QuestionMark
| Dollar
| Tilde
| Ampersand
| Plus
| Backtick
| Aposthrope
| Bang
| AtSymbol

/-- Variants for constants: top-level `::A`, scoped `A::B`, unscoped `A`,
and the three magic constants. -/
inductive ConstantVariants
| TopLevel (c : Constant)
| Scoped (vc : List Constant)
| Unscoped (c : Constant)
| File
| Line
| Encoding

/-- Variant for access: invocation of variables, self, and constants. -/
inductive AccessVariants
| _Self
| LocalVariable (v : Variable)
| InstanceVariable (v : Variable)
| ClassVariable (v : Variable)
| GlobalVariable (g : GlobalVariable)
| Constant (c : ConstantVariants)

/-- Assignment operator for binary operation. -/
inductive BinaryOperator
| Add
| Sub
| Or
| Xor
| And
| Multiply
| Divide
| Mod
| LeftShift
| RightShift

/-- Assignment operator for logical operation. -/
inductive LogicalOperator
| Or
| And

inductive VariableOrIndex
| Variable (v : Variable)
| Index

structure Retry where

/-- Trailing splat/keyword-splat/block combination for argument lists. -/
inductive SplatsAndBlockArgumentVariants (VarArg : Type)
| Splat (v : VarArg)
| UnnamedSplat
| KeyWordSplat (v : VarArg)
| UnnamedKeywordSplat
| SplatThenKeywordSplat (a b : VarArg)
| Block (v : VarArg)
| SplatThenBlock (a b : VarArg)
| SplatThenKeywordSplatThenBlock (a b c : VarArg)

mutual

inductive DecomposedArgumentVariants
| Plain (v : Variable)
| Nested (d : DecomposedArgument)

inductive DecomposedArgument
| mk (args : List DecomposedArgumentVariants)
    (rest : Option (SplatsAndBlockArgumentVariants Variable))

end

/-- Attribute access for assignment to instance attributes; the source field
`attribute` is renamed `attr` because `attribute` is a Lean keyword. -/
structure AccessAttributeVariants where
receiver : AccessVariants
attr : Variable

mutual

inductive MultipleLeftHandSideElement
| PlainAccess (a : AccessVariants)
| AttributeAccess (a : AccessAttributeVariants)
| Nested (m : MultipleLeftHandSide)

inductive MultipleLeftHandSide
| mk (elems : List MultipleLeftHandSideElement)

end

/-- Range literals; if second bound is None, it is an endless range. -/
inductive RangeLiteral
| Inclusive (i : IntegerLiteral) (si : Option IntegerLiteral)
| Exclusive (i : IntegerLiteral) (si : Option IntegerLiteral)

/-- Aliasing between two global variables. -/
structure AliasingVariable where
oldname : GlobalVariable
newname : GlobalVariable

set_option maxHeartbeats 0

mutual

/-- Expression in ruby: literals, access, assignment, definitions, and so on. -/
inductive Expression
| Literal (l : ValueVariants)
| Access (a : AccessVariants)
| Assignment (a : AssignmentVariants)
| ClassDefinition (c : ClassDefinitionVariants)
| ModuleDefinition (m : ModuleDefinition)
| MethodDefinition (m : MethodDefinitionVariants)
| MethodUndefinition (m : MethodUndefinition)
| Aliasing (a : AliasingVariants)
| SendMethod (s : SendMethodVariants)
| Operation (o : OperationVariants)
| LogicalOperation (l : LogicalOperationVariants)
| Branching (b : BranchingVariants)
| TernaryBranching (t : TernaryBranching)
| CaseMatching (c : CaseMatching)
| Loop (l : LoopVariants)
| Return (e : Option Expression)
| ExceptionHandling (e : ExceptionHandlingVariants)
| BEGINBlock (es : List Expression)
| ENDBlock (es : List Expression)
| FlipFlop (f : FlipFlopVariants)

/-- Represent variants of literal value. -/
inductive ValueVariants
| Singleton (s : SingletonVariants)
| Integer (i : IntegerLiteral)
| Float (f : FloatLiteral)
| Complex (c : ComplexLiteral)
| Rational (r : RationalLiteral)
| String (s : StringLiteral)
| Symbol (s : StringLiteral)
| HereDocument (h : HereDocumentVariants)
| ExecuteString (s : StringLiteral)
| RegularExpression (r : RegularExpression)
| Array (a : ArrayLiteral)
| Hash (h : HashLiteral)
| Range (r : RangeLiteral)

/-- String literal representation, without quotes; quotes are determined by
each emitting variant. -/
inductive StringLiteral
| Static (s : String)
| WithInterpolation (v : List Expression)

/-- Here document variants: plain, dash, and squiggly. -/
inductive HereDocumentVariants
| Plain (h : HereDocument)
| Dash (h : HereDocument)
| Squiggly (h : HereDocument)

inductive HereDocument
| mk (enclosure : Constant) (document : StringLiteral)

/-- Literal representation for regular expression. -/
inductive RegularExpression
| mk (expression : StringLiteral) (options : List RegularExpressionFlag)

/-- Literal representation for array. -/
inductive ArrayLiteral
| Plain (es : List Expression)
| Splat (a : ArrayExpression)
| WithInterpolation (v : List ArrayInterpolation)

/-- Specific expression that returns array: an array literal or an access. -/
inductive ArrayExpression
| Literal (a : ArrayLiteral)
| Access (a : AccessVariants)

/-- Represent each element in interpolated array. -/
inductive ArrayInterpolation
| Expression (e : Expression)
| Splat (a : ArrayExpression)

/-- Literal representation for hash (map). -/
inductive HashLiteral
| Plain (es : List HashElement)
| Splat (h : HashExpression)
| WithInterpolation (v : List HashInterpolation)

/-- Each element of a hash is either a pair or a labeled value. -/
inductive HashElement
| Pair (p : PairElement)
| WithLabel (l : LabeledElement)

inductive PairElement
| mk (key : Expression) (value : Expression)

inductive LabeledElement
| mk (key : StringLiteral) (value : Expression)

/-- A specific expression that returns hash. -/
inductive HashExpression
| Literal (h : HashLiteral)
| Access (a : AccessVariants)

/-- Represent each possible value for interpolated hash element. -/
inductive HashInterpolation
| Element (e : HashElement)
| Splat (h : HashExpression)

/-- Variants of assignment expression. -/
inductive AssignmentVariants
| ToLocalVariable (v : Variable) (e : Expression)
| ToInstanceVariable (v : Variable) (e : Expression)
| ToClassVariable (v : Variable) (e : Expression)
| ToGlobalVariable (g : GlobalVariable) (e : Expression)
| ToConstant (c : ConstantVariants) (e : Expression)
| ToAttribute (s : SendMethodAssignmentVariants)
| MultipleAssignment (l : MultipleLeftHandSide) (r : MultipleRightHandSide)
| BinaryOperator (op : BinaryOperator) (a : AccessVariants) (e : Expression)
| LogicalOperator (op : LogicalOperator) (a : AccessVariants) (e : Expression)

/-- Right hand side in multiple left hand side assignment. -/
inductive MultipleRightHandSide
| mk (a : ArrayInterpolation)

/-- Variants for class definition. -/
inductive ClassDefinitionVariants
| Class (c : ClassDefinition)
| Singleton (s : SingletonClassDefinition)

/-- Class definition that is not a singleton. -/
inductive ClassDefinition
| mk (name : ConstantVariants) (parent : Option ConstantVariants)
    (expressions : List Expression)

/-- Singleton class definition: only a list of expressions. -/
inductive SingletonClassDefinition
| mk (expressions : List Expression)

/-- Module definition: similar to class but without inheritance. -/
inductive ModuleDefinition
| mk (name : ConstantVariants) (expressions : List Expression)

inductive MethodDefinitionVariants
| Instance (m : InstanceMethod)
| Singleton (m : SingletonMethod)

inductive InstanceMethod
| mk (name : VariableOrIndex) (args : FormalArgument) (expressions : List Expression)

inductive SingletonMethod
| mk (name : Variable) (args : FormalArgument) (expressions : List Expression)

inductive FormalArgument
| mk (args : List PlainArgumentVariants)
    (rest : Option (SplatsAndBlockArgumentVariants Variable))

inductive PlainArgumentVariants
| Required (v : Variable)
| KeywordRequired (v : Variable)
| KeywordOptional (v : Variable) (e : Expression)
| Optional (v : Variable) (e : Expression)
| Decomposition (d : DecomposedArgument)

inductive ProcArgument
| mk (args : List ProcArgumentVariants)
    (rest : Option (SplatsAndBlockArgumentVariants MultipleLeftHandSideElement))

inductive ProcArgumentVariants
| PlainArgument (p : PlainArgumentVariants)
| MultipleLeftHandSide (m : MultipleLeftHandSideElement)

inductive MethodUndefinition
| mk (names : List StringLiteral)

inductive AliasingVariants
| Method (oldname newname : StringLiteral)
| GlobalVariable (g : GlobalVariable)

inductive AliasingMethod
| mk (oldname : StringLiteral) (newname : StringLiteral)

inductive SendMethodVariants
| Singleton (s : SendMethod)
| WithReceiver (receiver : Expression) (s : SendMethod)

inductive SendMethodAssignmentVariants
| Plain (s : SendMethodAssignment)
| WithIndex (s : SendMethodAssignmentWithIndex)

inductive SendMethodAssignment
| mk (receiver : Expression) (method : SendMethod)

inductive SendMethodAssignmentWithIndex
| mk (receiver : Expression) (index : Expression) (method : SendMethod)

inductive SendMethod
| mk (name : Variable) (args : SendMethodArgument)

inductive SendMethodArgument
| mk (args : List ArgumentVariants) (block : Option BlockArgument)

inductive ArgumentVariants
| Expression (e : Expression)
| Splat (a : ArrayExpression)
| Keyword (h : HashElement)
| KeywordSplat (h : HashExpression)

inductive BlockArgument
| Pass (p : ProcAsArgumentVariants)
| BeginBlock (p : ProcArgument) (es : List Expression)

inductive ProcAsArgumentVariants
| Variable (v : Variable)
| Expression (p : ProcExpressionVariants)

inductive ProcExpressionVariants
| Proc (p : ProcArgument) (es : List Expression)
| Lambda (p : ProcArgument) (es : List Expression)
| Stubby (p : ProcArgument) (es : List Expression)

inductive OperationVariants
| Paren (es : List Expression)
| BinaryExpression (b : BinaryExpressionOperation)
| Not (e : Expression)

inductive BinaryExpressionOperation
| mk (operator : BinaryOperator) (lefthand : Expression) (righthand : Expression)

inductive LogicalOperationVariants
| Equal (a b : Expression)
| And (a b : Expression)
| LowerPrecedenceAnd (a b : Expression)
| Or (a b : Expression)
| LowerPrecedenceOr (a b : Expression)
| DoubleAmpersands (a b : Expression)
| DoublePipes (a b : Expression)
| Not (e : Expression)
| Match (m : RegularExpressionMatch)

inductive RegularExpressionMatch
| mk (regex : RegularExpression) (expression : Expression)

inductive BranchingVariants
| If (b : BranchingIfVariants)
| Unless (b : BranchingUnlessVariants)

inductive BranchingIfVariants
| WithoutElse (b : BranchingIf)
| WithElse (t : TernaryBranching)
| WithElsif (w : WithElsifBranching)

inductive BranchingIf
| mk (condition : Expression) (iftrue : Expression)

inductive WithElsifBranching
| mk (condition : Expression) (iftrue : Expression) (elsif : BranchingIfVariants)

inductive BranchingUnlessVariants
| WithoutElse (b : BranchingUnless)
| WithElse (t : TernaryBranching)

inductive BranchingUnless
| mk (condition : Expression) (iffalse : Expression)

inductive TernaryBranching
| mk (condition : Expression) (iftrue : Expression) (iffalse : Expression)

inductive CaseMatching
| mk (condition : Option Expression) (when : List WhenDefinitionVariants)
    (default : Option Expression)

inductive WhenDefinitionVariants
| mk (condition : ArrayInterpolation) (iftrue : Expression)

inductive LoopVariants
| PreCondition (l : LoopConditionVariants)
| PostCondition (l : LoopConditionVariants)
| ForIn (f : ForLoop)

inductive ForLoop
| mk (assignee : MultipleLeftHandSideElement) (iterator : ArrayExpression)
    (expressions : List Expression)

inductive LoopConditionVariants
| While (l : LoopStruct)
| Until (l : LoopStruct)

inductive LoopStruct
| mk (condition : Expression) (expressions : List InLoopExpression)

inductive InLoopExpression
| Plain (e : Expression)
| Break (e : Option Expression)
| Next (e : Option Expression)
| Redo

inductive ExceptionHandlingVariants
| InlineRescue (a b : Expression)
| DefRescue (es : List Expression) (r : RescueBodyVariants)
| BeginRescue (es : List Expression) (r : RescueBodyVariants)

inductive RescueBodyVariants
| Rescue (bodies : List RescueBody) (rest : Option RescueEnsureOrElse)
| Ensure (es : List Expression)

inductive RescueBody
| mk (exceptions : List ConstantVariants) (assignment : Option AccessVariants)
    (expressions : List Expression × Option Retry)

inductive RescueEnsureOrElse
| Ensure (es : List Expression)
| Else (es : List Expression)

inductive FlipFlopVariants
| Inclusive (f : FlipFlop)
| Exclusive (f : FlipFlop)

inductive FlipFlop
| mk (flip : Expression) (flop : Expression) (expressions : List Expression)

end

/-- Represent ruby source code as a list of expressions. -/
structure Root where
expressions : List Expression

end ast

/-! Emitters, translated from src/emitters/. -/

/-- Embeds `Expression::emit` from `src/emitters/expression.rs`: the expression
emitter in the source is a stub that returns the empty string for every
expression, whatever its variant. -/
def Expression.emit (_e : ast.Expression) : String :=
  ""

/-- Embeds `constant_variants` from `src/emitters/access.rs`. -/
def constant_variants (c : ast.ConstantVariants) : String :=
  match c with
  | .Encoding => "__ENCODING__"
  | .File => "__FILE__"
  | .Line => "__LINE__"
  | .Scoped vc => String.intercalate "::" (vc.map ast.Constant.val)
  | .TopLevel tlc => "::" ++ tlc.val
  | .Unscoped uc => uc.val

/-- Embeds `global_variables` from `src/emitters/access.rs`. -/
def global_variables (g : ast.GlobalVariable) : String :=
  match g with
  | .Ampersand => "$&"
  | .Aposthrope => "$\x27"
  | .AtSymbol => "$@"
  | .Backtick => "$`"
  | .Bang => "$!"
  | .Colon => "$:"
  | .Dollar => "$$"
  | .NthReference i => "$" ++ toString i.val
  | .Plain pv => "$" ++ pv.val
  | .Plus => "$+"
  | .QuestionMark => "$?"
  | .Splat => "$*"
  | .Tilde => "$~"

/-- Embeds `Access::emit` from `src/emitters/access.rs`. -/
def Access.emit (a : ast.AccessVariants) : String :=
  match a with
  | .ClassVariable cv => "@@" ++ cv.val
  | .Constant c => constant_variants c
  | .GlobalVariable g => global_variables g
  | .InstanceVariable iv => "@" ++ iv.val
  | .LocalVariable v => v.val
  | ._Self => "self"

/-- Embeds `Singleton::emit` from `src/emitters/literals.rs`. -/
def Singleton.emit (s : ast.SingletonVariants) : String :=
  match s with
  | .False => "false"
  | .True => "true"
  | .Nil => "nil"

/-- The character class `[0-9a-zA-Z]` of the `PROP_SYMBOL` regex in
`src/emitters/literals.rs`. -/
def prop_symbol_char (c : Char) : Bool :=
  decide (('0' ≤ c ∧ c ≤ '9') ∨ ('a' ≤ c ∧ c ≤ 'z') ∨ ('A' ≤ c ∧ c ≤ 'Z'))

/-- Models `PROP_SYMBOL.is_match(s)` for the regex `[^0-9a-zA-Z]`: true exactly
when some character of `s` lies outside `[0-9a-zA-Z]`. -/
def prop_symbol_is_match (s : String) : Bool :=
  s.data.any (fun c => !(prop_symbol_char c))

/-- Embeds `symbol_quote` from `src/emitters/literals.rs`: a payload containing
any character outside `[0-9a-zA-Z]` is wrapped in curly braces, anything else
is returned unchanged. -/
def symbol_quote (s : String) : String :=
  if prop_symbol_is_match s then "\x7b" ++ s ++ "\x7d" else s

/-- Embeds `RangeVal::emit` from `src/emitters/literals.rs`. -/
def RangeVal.emit (r : ast.RangeLiteral) : String :=
  match r with
  | .Exclusive i si => toString i.val ++ "..." ++ (si.elim "" (fun int => toString int.val))
  | .Inclusive i si => toString i.val ++ ".." ++ (si.elim "" (fun int => toString int.val))

/-- The single-letter code of each regular-expression flag, the inline `match`
of `RegularExpression::emit` in `src/emitters/literals.rs`. -/
def regular_expression_flag (fl : ast.RegularExpressionFlag) : String :=
  match fl with
  | .E => "e"
  | .I => "i"
  | .M => "m"
  | .N => "n"
  | .U => "u"
  | .X => "x"

mutual

/-- Embeds `ArrayVal::emit` from `src/emitters/literals.rs`. -/
def ArrayVal.emit (a : ast.ArrayLiteral) : String :=
  match a with
  | .Plain vexp => "[" ++ String.intercalate ", " (vexp.map Expression.emit) ++ "]"
  | .Splat aexp => array_expression aexp
  | .WithInterpolation vaip =>
      "[" ++ String.intercalate ", " (array_interpolations vaip) ++ "]"
termination_by sizeOf a

/-- The element-wise map inside the `WithInterpolation` arm of
`ArrayVal::emit`, made a mutual helper so the recursion is visible. -/
def array_interpolations : List ast.ArrayInterpolation → List String
  | [] => []
  | aip :: rest =>
      (match aip with
       | ast.ArrayInterpolation.Expression exp => Expression.emit exp
       | ast.ArrayInterpolation.Splat aexp => array_expression aexp)
      :: array_interpolations rest
termination_by l => sizeOf l

/-- Embeds `array_expression` from `src/emitters/literals.rs`. -/
def array_expression (aexp : ast.ArrayExpression) : String :=
  "*" ++
  (match aexp with
   | .Access av => Access.emit av
   | .Literal al => ArrayVal.emit al)
termination_by sizeOf aexp

end

mutual

/-- Embeds `Literals::emit` from `src/emitters/literals.rs`. -/
def Literals.emit (v : ast.ValueVariants) : String :=
  match v with
  | .Singleton var => Singleton.emit var
  | .Integer i => toString i.val
  | .Float f => toString f.val
  | .Complex c => toString c.val ++ "i"
  | .Rational r => toString r.val
  | .String s => "\"" ++ StringVal.emit s ++ "\""
  | .Symbol s => ":" ++ SymVal.emit s
  | .HereDocument hd => HereDoc.emit hd
  | .ExecuteString s => "`" ++ StringVal.emit s ++ "`"
  | .RegularExpression rgx => RegularExpression.emit rgx
  | .Array arr => ArrayVal.emit arr
  | .Hash h => HashVal.emit h
  | .Range r => RangeVal.emit r
termination_by sizeOf v

/-- Embeds `StringVal::emit` from `src/emitters/literals.rs`. -/
def StringVal.emit (s : ast.StringLiteral) : String :=
  match s with
  | .Static s => s
  | .WithInterpolation v => string_interpolate_fold "" v
termination_by sizeOf s

/-- The accumulator fold over interpolation segments shared by
`StringVal::emit` and `SymVal::emit`, written as explicit left-fold
recursion: each segment passes through `string_interpolate` and is appended
to the buffer. -/
def string_interpolate_fold (buff : String) : List ast.Expression → String
  | [] => buff
  | exp :: rest => string_interpolate_fold (buff ++ string_interpolate exp) rest
termination_by l => sizeOf l

/-- Embeds `string_interpolate` from `src/emitters/literals.rs`: a plain string
literal segment renders inline, any other segment is wrapped in the
interpolation escape. -/
def string_interpolate (exp : ast.Expression) : String :=
  match exp with
  | .Literal (ast.ValueVariants.String s) => StringVal.emit s
  | .Literal l => "#\x7b" ++ Literals.emit l ++ "\x7d"
  | _ => "#\x7b" ++ Expression.emit exp ++ "\x7d"
termination_by sizeOf exp

/-- Embeds `SymVal::emit` from `src/emitters/literals.rs`. -/
def SymVal.emit (s : ast.StringLiteral) : String :=
  match s with
  | .Static s => symbol_quote s
  | .WithInterpolation v => "\"" ++ string_interpolate_fold "" v ++ "\""
termination_by sizeOf s

/-- Embeds `HereDoc::emit` from `src/emitters/literals.rs`. -/
def HereDoc.emit (h : ast.HereDocumentVariants) : String :=
  match h with
  | .Plain (.mk enc doc) => "<<" ++ enc.val ++ StringVal.emit doc ++ enc.val
  | .Dash (.mk enc doc) =>
      "<<-" ++ enc.val ++ "\n" ++ StringVal.emit doc ++ "\n" ++ enc.val
  | .Squiggly (.mk enc doc) =>
      "<~" ++ enc.val ++ "\n" ++ StringVal.emit doc ++ "\n" ++ enc.val
termination_by sizeOf h

/-- Embeds `RegularExpression::emit` from `src/emitters/literals.rs`: the flag
suffix folds over `options` in list order. -/
def RegularExpression.emit (r : ast.RegularExpression) : String :=
  match r with
  | .mk expression options =>
      "/" ++ StringVal.emit expression ++ "/" ++
        options.foldl (fun opts fl => opts ++ regular_expression_flag fl) ""
termination_by sizeOf r

/-- Embeds `HashVal::emit` from `src/emitters/literals.rs`. -/
def HashVal.emit (h : ast.HashLiteral) : String :=
  "\x7b\n" ++
  (match h with
   | .Plain vh => String.intercalate ", " (hash_elements vh)
   | .Splat sxp => hash_expression sxp
   | .WithInterpolation hwp => String.intercalate ", " (hash_interpolations hwp)) ++
  "\n\x7d"
termination_by sizeOf h

/-- Element-wise map of `hash_element` over a plain hash body. -/
def hash_elements : List ast.HashElement → List String
  | [] => []
  | elt :: rest => hash_element elt :: hash_elements rest
termination_by l => sizeOf l

/-- Element-wise map inside the `WithInterpolation` arm of `HashVal::emit`. -/
def hash_interpolations : List ast.HashInterpolation → List String
  | [] => []
  | hint :: rest =>
      (match hint with
       | ast.HashInterpolation.Element elt => hash_element elt
       | ast.HashInterpolation.Splat exp => hash_expression exp)
      :: hash_interpolations rest
termination_by l => sizeOf l

/-- Embeds `hash_element` from `src/emitters/literals.rs`. -/
def hash_element (elt : ast.HashElement) : String :=
  match elt with
  | .Pair (.mk key value) => Expression.emit key ++ " => " ++ Expression.emit value
  | .WithLabel (.mk key value) => StringVal.emit key ++ ": " ++ Expression.emit value
termination_by sizeOf elt

/-- Embeds `hash_expression` from `src/emitters/literals.rs`. -/
def hash_expression (exp : ast.HashExpression) : String :=
  "**" ++
  (match exp with
   | .Access acc => Access.emit acc
   | .Literal hl => HashVal.emit hl)
termination_by sizeOf exp

end

/-! Statement-side vocabulary. -/

/-- Ordered concatenation of a list of fragments, used to state how the
renderer joins per-element outputs. -/
def string_concat_list : List String → String
  | [] => ""
  | s :: rest => s ++ string_concat_list rest

/-- Decides whether a literal value is a plain string literal
(`ValueVariants::String`). -/
def is_string_value (v : ast.ValueVariants) : Bool :=
  match v with
  | .String _ => true
  | _ => false

/-- Decides whether an expression is a literal (`Expression::Literal`). -/
def is_literal_expression (e : ast.Expression) : Bool :=
  match e with
  | .Literal _ => true
  | _ => false

/-! Evaluation lemmas for the well-founded emitters. -/

theorem literals_emit_symbol (s : ast.StringLiteral) :
    Literals.emit (ast.ValueVariants.Symbol s) = ":" ++ SymVal.emit s := by
  simp [Literals.emit]

theorem symval_emit_static (s : String) :
    SymVal.emit (ast.StringLiteral.Static s) = symbol_quote s := by
  simp [SymVal.emit]

theorem symval_emit_interp (v : List ast.Expression) :
    SymVal.emit (ast.StringLiteral.WithInterpolation v) =
      "\"" ++ string_interpolate_fold "" v ++ "\"" := by
  simp [SymVal.emit]

theorem stringval_emit_static (s : String) :
    StringVal.emit (ast.StringLiteral.Static s) = s := by
  simp [StringVal.emit]

theorem stringval_emit_interp (v : List ast.Expression) :
    StringVal.emit (ast.StringLiteral.WithInterpolation v) =
      string_interpolate_fold "" v := by
  simp [StringVal.emit]

theorem regexp_emit_eq (expression : ast.StringLiteral)
    (options : List ast.RegularExpressionFlag) :
    RegularExpression.emit (ast.RegularExpression.mk expression options) =
      "/" ++ StringVal.emit expression ++ "/" ++
        options.foldl (fun opts fl => opts ++ regular_expression_flag fl) "" := by
  simp [RegularExpression.emit]

theorem string_concat_list_append (l1 l2 : List String) :
    string_concat_list (l1 ++ l2) = string_concat_list l1 ++ string_concat_list l2 := by
  induction l1 with
  | nil => simp [string_concat_list]
  | cons s rest ih => simp [string_concat_list, ih, String.append_assoc]

theorem string_interpolate_fold_eq (l : List ast.Expression) (buff : String) :
    string_interpolate_fold buff l =
      buff ++ string_concat_list (l.map string_interpolate) := by
  induction l generalizing buff with
  | nil => simp [string_interpolate_fold, string_concat_list, String.append_empty]
  | cons exp rest ih =>
      simp [string_interpolate_fold, string_concat_list, ih, String.append_assoc]

theorem regexp_flags_foldl (l : List ast.RegularExpressionFlag) (acc : String) :
    l.foldl (fun opts fl => opts ++ regular_expression_flag fl) acc =
      acc ++ string_concat_list (l.map regular_expression_flag) := by
  induction l generalizing acc with
  | nil => simp [string_concat_list, String.append_empty]
  | cons fl rest ih => simp [string_concat_list, ih, String.append_assoc]

theorem all_prop_symbol_char_iff (s : String) :
    s.data.all prop_symbol_char = !(prop_symbol_is_match s) := by
  simp [prop_symbol_is_match, List.all_eq_not_any_not]

/-! The claims. -/

/-- Claim C1 (code_bug evidence): the expression emitter of
`src/emitters/expression.rs` returns the empty placeholder string for every
expression, instead of failing loudly on unsupported nodes as the
specification requires. -/
theorem c1_expression_emitter_returns_empty_placeholder
    (e : ast.Expression) : Expression.emit e = "" := rfl

/-- Claim C2 (counterexample): the symbol payload `foo_bar` does not render
bare as the colon followed by foo_bar; the underscore lies outside the
`[0-9a-zA-Z]` class of the code, so the payload renders brace-wrapped. -/
theorem c2_claim_counterexample :
    Literals.emit (ast.ValueVariants.Symbol (ast.StringLiteral.Static "foo_bar")) =
      ":\x7bfoo_bar\x7d" ∧ (":\x7bfoo_bar\x7d" : String) ≠ ":foo_bar" := by
  constructor
  · rw [literals_emit_symbol, symval_emit_static, symbol_quote, if_pos (by decide)]
    decide
  · decide

/-- Claim C2 (amended): a static symbol payload whose characters all lie in
`[0-9a-zA-Z]` renders bare after the colon; any other payload (an underscore
or space included) renders wrapped in curly braces; `foo_bar` renders as
colon-brace-wrapped, as does `foo bar`. -/
theorem c2_symbol_quoting_amended :
    (∀ s : String, s.data.all prop_symbol_char = true →
      Literals.emit (ast.ValueVariants.Symbol (ast.StringLiteral.Static s)) = ":" ++ s) ∧
    (∀ s : String, s.data.all prop_symbol_char = false →
      Literals.emit (ast.ValueVariants.Symbol (ast.StringLiteral.Static s)) =
        ":" ++ ("\x7b" ++ s ++ "\x7d")) ∧
    Literals.emit (ast.ValueVariants.Symbol (ast.StringLiteral.Static "foo_bar")) =
      ":\x7bfoo_bar\x7d" ∧
    Literals.emit (ast.ValueVariants.Symbol (ast.StringLiteral.Static "foo bar")) =
      ":\x7bfoo bar\x7d" := by
  refine ⟨fun s h => ?_, fun s h => ?_, ?_, ?_⟩
  · rw [literals_emit_symbol, symval_emit_static, symbol_quote, if_neg]
    rw [all_prop_symbol_char_iff] at h
    simp at h
    simp [h]
  · rw [literals_emit_symbol, symval_emit_static, symbol_quote, if_pos]
    rw [all_prop_symbol_char_iff] at h
    simp at h
    simp [h]
  · rw [literals_emit_symbol, symval_emit_static, symbol_quote, if_pos (by decide)]
    decide
  · rw [literals_emit_symbol, symval_emit_static, symbol_quote, if_pos (by decide)]
    decide

/-- Witness for C2 (amended), at the concrete payloads `foo` and `foo bar`. -/
theorem c2_symbol_quoting_amended_witness :
    ("foo".data.all prop_symbol_char = true ∧
      Literals.emit (ast.ValueVariants.Symbol (ast.StringLiteral.Static "foo")) =
        ":" ++ "foo") ∧
    ("foo bar".data.all prop_symbol_char = false ∧
      Literals.emit (ast.ValueVariants.Symbol (ast.StringLiteral.Static "foo bar")) =
        ":" ++ ("\x7b" ++ "foo bar" ++ "\x7d")) :=
  ⟨⟨by decide, c2_symbol_quoting_amended.1 "foo" (by decide)⟩,
   ⟨by decide, c2_symbol_quoting_amended.2.1 "foo bar" (by decide)⟩⟩

/-- Claim C3 (counterexample): the flag lists `[I, E]` and `[E, I]` denote the
same flag set, yet render the suffixes `ie` and `ei` respectively — the
renderer follows input order, not the declaration order of the enum. -/
theorem c3_claim_counterexample :
    RegularExpression.emit (ast.RegularExpression.mk (ast.StringLiteral.Static "a")
      [ast.RegularExpressionFlag.I, ast.RegularExpressionFlag.E]) = "/a/ie" ∧
    RegularExpression.emit (ast.RegularExpression.mk (ast.StringLiteral.Static "a")
      [ast.RegularExpressionFlag.E, ast.RegularExpressionFlag.I]) = "/a/ei" ∧
    ("/a/ie" : String) ≠ "/a/ei" := by
  refine ⟨?_, ?_, by decide⟩
  · rw [regexp_emit_eq, stringval_emit_static]
    decide
  · rw [regexp_emit_eq, stringval_emit_static]
    decide

/-- Claim C3 (amended): the rendered output is `/pattern/` followed by the
single-letter codes of the flags concatenated in the input order of the
options list; concatenation distributes over list append, so permuting the
flags list permutes the suffix rather than leaving it fixed. -/
theorem c3_regex_flags_amended :
    (∀ (expression : ast.StringLiteral) (options : List ast.RegularExpressionFlag),
      RegularExpression.emit (ast.RegularExpression.mk expression options) =
        "/" ++ StringVal.emit expression ++ "/" ++
          string_concat_list (options.map regular_expression_flag)) ∧
    (∀ l1 l2 : List ast.RegularExpressionFlag,
      string_concat_list ((l1 ++ l2).map regular_expression_flag) =
        string_concat_list (l1.map regular_expression_flag) ++
          string_concat_list (l2.map regular_expression_flag)) := by
  constructor
  · intro expression options
    rw [regexp_emit_eq, regexp_flags_foldl]
    rfl
  · intro l1 l2
    rw [List.map_append, string_concat_list_append]

/-- Claim C4: scoped constants join their segments with `::` in order,
top-level constants prefix `::` with no leading segment, unscoped constants
render bare, and the three magic constants render as fixed tokens. -/
theorem c4_constant_rendering :
    (∀ l : List ast.Constant, constant_variants (ast.ConstantVariants.Scoped l) =
      String.intercalate "::" (l.map ast.Constant.val)) ∧
    (∀ a b : ast.Constant,
      constant_variants (ast.ConstantVariants.Scoped [a, b]) = a.val ++ "::" ++ b.val) ∧
    (∀ a : ast.Constant,
      constant_variants (ast.ConstantVariants.TopLevel a) = "::" ++ a.val) ∧
    (∀ a : ast.Constant, constant_variants (ast.ConstantVariants.Unscoped a) = a.val) ∧
    constant_variants ast.ConstantVariants.File = "__FILE__" ∧
    constant_variants ast.ConstantVariants.Line = "__LINE__" ∧
    constant_variants ast.ConstantVariants.Encoding = "__ENCODING__" :=
  ⟨fun _ => rfl, fun _ _ => rfl, fun _ => rfl, fun _ => rfl, rfl, rfl, rfl⟩

/-- Claim C5: an interpolated string/symbol payload renders its segments in
order; a segment that is a plain string literal renders inline, any other
segment is wrapped in the interpolation escape, and a static payload renders as
its raw text. -/
theorem c5_interpolation_rendering :
    (∀ v : List ast.Expression,
      StringVal.emit (ast.StringLiteral.WithInterpolation v) =
        string_concat_list (v.map string_interpolate)) ∧
    (∀ v : List ast.Expression,
      SymVal.emit (ast.StringLiteral.WithInterpolation v) =
        "\"" ++ string_concat_list (v.map string_interpolate) ++ "\"") ∧
    (∀ s : ast.StringLiteral,
      string_interpolate (ast.Expression.Literal (ast.ValueVariants.String s)) =
        StringVal.emit s) ∧
    (∀ l : ast.ValueVariants, is_string_value l = false →
      string_interpolate (ast.Expression.Literal l) =
        "#\x7b" ++ Literals.emit l ++ "\x7d") ∧
    (∀ e : ast.Expression, is_literal_expression e = false →
      string_interpolate e = "#\x7b" ++ Expression.emit e ++ "\x7d") ∧
    (∀ s : String, StringVal.emit (ast.StringLiteral.Static s) = s) := by
  refine ⟨fun v => ?_, fun v => ?_, fun s => ?_, fun l h => ?_, fun e h => ?_,
    fun s => ?_⟩
  · rw [stringval_emit_interp, string_interpolate_fold_eq]
    rfl
  · rw [symval_emit_interp, string_interpolate_fold_eq]
    rfl
  · simp [string_interpolate]
  · cases l <;> simp_all [is_string_value, string_interpolate]
  · cases e <;> simp_all [is_literal_expression, string_interpolate, Expression.emit]
  · exact stringval_emit_static s

/-- Witness for C5, instantiating the hypothesis-bearing conjuncts at an
integer-literal segment and at an access (non-literal) segment. -/
theorem c5_interpolation_rendering_witness :
    (is_string_value (ast.ValueVariants.Integer (ast.IntegerLiteral.mk 1)) = false ∧
      string_interpolate (ast.Expression.Literal
          (ast.ValueVariants.Integer (ast.IntegerLiteral.mk 1))) =
        "#\x7b" ++ Literals.emit (ast.ValueVariants.Integer (ast.IntegerLiteral.mk 1)) ++
          "\x7d") ∧
    (is_literal_expression (ast.Expression.Access ast.AccessVariants._Self) = false ∧
      string_interpolate (ast.Expression.Access ast.AccessVariants._Self) =
        "#\x7b" ++ Expression.emit (ast.Expression.Access ast.AccessVariants._Self) ++
          "\x7d") :=
  ⟨⟨rfl, c5_interpolation_rendering.2.2.2.1 _ rfl⟩,
   ⟨rfl, c5_interpolation_rendering.2.2.2.2.1 _ rfl⟩⟩

/-- Claim C6: range bounds are joined by `..` (inclusive) or `...`
(exclusive), and an absent upper bound is omitted entirely. -/
theorem c6_range_rendering :
    (∀ (i : ast.IntegerLiteral) (si : Option ast.IntegerLiteral),
      RangeVal.emit (ast.RangeLiteral.Inclusive i si) =
        toString i.val ++ ".." ++ si.elim "" (fun j => toString j.val)) ∧
    (∀ (i : ast.IntegerLiteral) (si : Option ast.IntegerLiteral),
      RangeVal.emit (ast.RangeLiteral.Exclusive i si) =
        toString i.val ++ "..." ++ si.elim "" (fun j => toString j.val)) ∧
    RangeVal.emit (ast.RangeLiteral.Inclusive (ast.IntegerLiteral.mk 1) none) = "1.." ∧
    RangeVal.emit (ast.RangeLiteral.Exclusive (ast.IntegerLiteral.mk 1)
      (some (ast.IntegerLiteral.mk 5))) = "1...5" :=
  ⟨fun _ _ => rfl, fun _ _ => rfl, by decide, by decide⟩

/-- Claim C7: the renderer preserves declaration order of ordered-sequence
fields: the output is the order-preserving join of the per-element renders,
and reindexing (in particular permuting) the input sequence reindexes the
joined substrings identically, for scoped-constant segments and plain-array
elements alike. -/
theorem c7_order_preservation :
    (∀ l : List ast.Constant, constant_variants (ast.ConstantVariants.Scoped l) =
      String.intercalate "::" (l.map ast.Constant.val)) ∧
    (∀ l : List ast.Expression, ArrayVal.emit (ast.ArrayLiteral.Plain l) =
      "[" ++ String.intercalate ", " (l.map Expression.emit) ++ "]") ∧
    (∀ (l : List ast.Constant) (ix : List Nat),
      constant_variants (ast.ConstantVariants.Scoped
          (ix.map (fun i => l.getD i (ast.Constant.mk "")))) =
        String.intercalate "::" (ix.map (fun i => (l.getD i (ast.Constant.mk "")).val))) ∧
    (∀ (l : List ast.Expression) (ix : List Nat) (d : ast.Expression),
      ArrayVal.emit (ast.ArrayLiteral.Plain (ix.map (fun i => l.getD i d))) =
        "[" ++ String.intercalate ", "
          (ix.map (fun i => Expression.emit (l.getD i d))) ++ "]") := by
  refine ⟨fun l => rfl, fun l => ?_, fun l ix => ?_, fun l ix d => ?_⟩
  · simp [ArrayVal.emit]
  · simp [constant_variants, List.map_map]
    rfl
  · simp [ArrayVal.emit, List.map_map]
    rfl

/-- Claim C8: each emitter is a pure function of its input: equal syntax-tree
values always render to identical strings. -/
theorem c8_emitters_deterministic :
    (∀ v w : ast.ValueVariants, v = w → Literals.emit v = Literals.emit w) ∧
    (∀ a b : ast.AccessVariants, a = b → Access.emit a = Access.emit b) ∧
    (∀ e f : ast.Expression, e = f → Expression.emit e = Expression.emit f) :=
  ⟨fun _ _ h => congrArg Literals.emit h,
   fun _ _ h => congrArg Access.emit h,
   fun _ _ h => congrArg Expression.emit h⟩

/-- Witness for C8 at a concrete literal value. -/
theorem c8_emitters_deterministic_witness :
    ast.ValueVariants.Singleton ast.SingletonVariants.Nil =
        ast.ValueVariants.Singleton ast.SingletonVariants.Nil ∧
      Literals.emit (ast.ValueVariants.Singleton ast.SingletonVariants.Nil) =
        Literals.emit (ast.ValueVariants.Singleton ast.SingletonVariants.Nil) :=
  ⟨rfl, c8_emitters_deterministic.1 _ _ rfl⟩

/-- Claim C9: a symbol literal with an empty static payload renders as the
bare colon `:`; the needs-quoting test matches only when some character lies
outside `[0-9a-zA-Z]`, so the empty payload is not quoted. -/
theorem c9_empty_symbol_renders_bare_colon :
    Literals.emit (ast.ValueVariants.Symbol (ast.StringLiteral.Static "")) = ":" ∧
    prop_symbol_is_match "" = false := by
  refine ⟨?_, by decide⟩
  rw [literals_emit_symbol, symval_emit_static, symbol_quote, if_neg (by decide)]
  decide

/-- Claim C10: a Plain heredoc renders `<<`, marker, document, marker with no
newline separators; Dash renders `<<-`, marker, newline, document, newline,
marker; Squiggly renders like Dash but opens with `<~`. -/
theorem c10_heredoc_rendering (enc : ast.Constant) (doc : ast.StringLiteral) :
    HereDoc.emit (ast.HereDocumentVariants.Plain (ast.HereDocument.mk enc doc)) =
        "<<" ++ enc.val ++ StringVal.emit doc ++ enc.val ∧
    HereDoc.emit (ast.HereDocumentVariants.Dash (ast.HereDocument.mk enc doc)) =
        "<<-" ++ enc.val ++ "\n" ++ StringVal.emit doc ++ "\n" ++ enc.val ∧
    HereDoc.emit (ast.HereDocumentVariants.Squiggly (ast.HereDocument.mk enc doc)) =
        "<~" ++ enc.val ++ "\n" ++ StringVal.emit doc ++ "\n" ++ enc.val := by
  refine ⟨?_, ?_, ?_⟩ <;> simp [HereDoc.emit]
